import Mathlib

/-!
Verification development for the Shelterkin instance-generation subsystem.

The definitions below are a shallow embedding of the generation engine,
recurrence matcher, local-time resolver, reconciliation/cleanup queries,
status checker and housekeeping worker, translated from the repository's
design source (the generator design document with its embedded Go and SQL),
from `src/db/queries/sessions.sql`, and from the Go standard library time
semantics the code relies on (time.Date zone normalization for
America/New_York under the post-2007 US DST rules).

Times are modelled as minutes since the civil epoch 1970-01-01 00:00 (Int);
calendar days as day numbers since 1970-01-01 (Int).  Database rows are
records in Lean structures; a table is a list of rows; UPDATE/DELETE
statements become list maps/filters translated clause by clause from the
SQL text.
-/

namespace Shelterkin

/-! ## Civil calendar arithmetic -/

/-- Leap-year test of the proleptic Gregorian calendar. -/
def isLeap (y : Int) : Bool :=
  y % 4 == 0 && (y % 100 != 0 || y % 400 == 0)

/-- Number of days in a month (month is 1..12). -/
def daysInMonth (y : Int) (m : Nat) : Nat :=
  if m == 2 then (if isLeap y then 29 else 28)
  else if m == 4 || m == 6 || m == 9 || m == 11 then 30
  else 31

/-- A civil calendar date (year, month 1..12, day 1..31). -/
structure Date where
  year : Int
  month : Nat
  day : Nat
deriving DecidableEq, Repr

/-- A date is valid when the month is in range and the day exists in that
month of that year. -/
def validDate (d : Date) : Prop :=
  1 ≤ d.month ∧ d.month ≤ 12 ∧ 1 ≤ d.day ∧ d.day ≤ daysInMonth d.year d.month

instance (d : Date) : Decidable (validDate d) := by
  unfold validDate; infer_instance

/-- Days since 1970-01-01 of a civil date (standard civil-from-days
algorithm, as used by Go's time package internally). -/
def daysFromCivil (dt : Date) : Int :=
  let y : Int := if dt.month ≤ 2 then dt.year - 1 else dt.year
  let era : Int := Int.fdiv y 400
  let yoe : Int := y - era * 400
  let mp : Int := if dt.month > 2 then (dt.month : Int) - 3 else (dt.month : Int) + 9
  let doy : Int := Int.fdiv (153 * mp + 2) 5 + (dt.day : Int) - 1
  let doe : Int := yoe * 365 + Int.fdiv yoe 4 - Int.fdiv yoe 100 + doy
  era * 146097 + doe - 719468

/-- Civil date of a day number (inverse of daysFromCivil on valid input). -/
def civilFromDays (z : Int) : Date :=
  let z' := z + 719468
  let era : Int := Int.fdiv z' 146097
  let doe : Int := z' - era * 146097
  let yoe : Int := Int.fdiv (doe - Int.fdiv doe 1460 + Int.fdiv doe 36524 - Int.fdiv doe 146096) 365
  let y : Int := yoe + era * 400
  let doy : Int := doe - (365 * yoe + Int.fdiv yoe 4 - Int.fdiv yoe 100)
  let mp : Int := Int.fdiv (5 * doy + 2) 153
  let d : Int := doy - Int.fdiv (153 * mp + 2) 5 + 1
  let m : Int := if mp < 10 then mp + 3 else mp - 9
  { year := if m ≤ 2 then y + 1 else y, month := m.toNat, day := d.toNat }

/-- Weekday index of a date, 0 = Sunday .. 6 = Saturday
(1970-01-01 was a Thursday). -/
def weekdayIndex (dt : Date) : Int :=
  (daysFromCivil dt + 4) % 7

/-- Lower-cased three-letter weekday name, as Go's
strings.ToLower(date.Weekday().String()[:3]) produces. -/
def weekdayAbbr (dt : Date) : String :=
  match (weekdayIndex dt).toNat with
  | 0 => "sun" | 1 => "mon" | 2 => "tue" | 3 => "wed"
  | 4 => "thu" | 5 => "fri" | _ => "sat"

/-! ## Timezones and the local-time resolver

America/New_York: standard offset UTC-5h (EST), daylight offset UTC-4h
(EDT); under the post-2007 US rules DST runs from the second Sunday of
March at 2:00 local standard time to the first Sunday of November at
2:00 local daylight time. -/

inductive Tz where
  | utc
  | newYork
deriving DecidableEq, Repr

/-- Day-of-month of the first Sunday of a given month of a given year. -/
def firstSundayOfMonth (y : Int) (m : Nat) : Nat :=
  let w := (weekdayIndex { year := y, month := m, day := 1 }).toNat
  1 + (7 - w) % 7

/-- UTC instant (minutes) at which DST starts in New York in year y:
second Sunday of March, 2:00 EST = 7:00 UTC. -/
def nyDstStartUTC (y : Int) : Int :=
  let d := firstSundayOfMonth y 3 + 7
  daysFromCivil { year := y, month := 3, day := d } * 1440 + 2 * 60 + 5 * 60

/-- UTC instant (minutes) at which DST ends in New York in year y:
first Sunday of November, 2:00 EDT = 6:00 UTC. -/
def nyDstEndUTC (y : Int) : Int :=
  let d := firstSundayOfMonth y 11
  daysFromCivil { year := y, month := 11, day := d } * 1440 + 2 * 60 + 4 * 60

/-- Zone lookup for America/New_York at a UTC instant, mirroring Go's
Location.lookup: returns the offset (minutes east of UTC) together with
the start and end UTC instants of the containing zone interval. -/
def nyLookup (t : Int) : Int × Int × Int :=
  let y := (civilFromDays (Int.fdiv t 1440)).year
  if t < nyDstStartUTC y then (-300, nyDstEndUTC (y - 1), nyDstStartUTC y)
  else if t < nyDstEndUTC y then (-240, nyDstStartUTC y, nyDstEndUTC y)
  else (-300, nyDstEndUTC y, nyDstStartUTC (y + 1))

/-- Zone lookup for a modelled timezone (UTC has a single interval). -/
def tzLookup (tz : Tz) (t : Int) : Int × Int × Int :=
  match tz with
  | .utc => (0, 0, 0)
  | .newYork => nyLookup t

/-- Display offset (minutes east of UTC) of a timezone at a UTC instant. -/
def tzOffsetAt (tz : Tz) (t : Int) : Int :=
  (tzLookup tz t).1

/-- UTC instant (minutes) of a wall-clock civil datetime in a timezone,
following the zone normalization of Go's time.Date: look up the zone at
the wall clock read as UTC, adjust, and re-look-up if the adjusted
instant falls outside the interval found.  A fall-back wall time that
occurs twice resolves to its first occurrence. -/
def goDate (tz : Tz) (wall : Int) : Int :=
  match tz with
  | .utc => wall
  | .newYork =>
    let (offset, zstart, zend) := nyLookup wall
    let utc := wall - offset
    let offset' := if utc < zstart || zend ≤ utc then (nyLookup utc).1 else offset
    wall - offset'

/-- Decimal digit-string conversion over characters; on the digit-only
inputs the resolver receives this agrees with Go's strconv.Atoi. -/
def atoiDigits (cs : List Char) : Nat :=
  cs.foldl (fun acc c => acc * 10 + (c.toNat - 48)) 0

/-- Parse an "HH:MM" time-of-day string into minutes after midnight,
as the resolver's strings.Split on a colon followed by strconv.Atoi of
the hour and minute parts does. -/
def parseTimeOfDay (s : String) : Int :=
  let hh := s.data.takeWhile (fun c => c ≠ ':')
  let mm := ((s.data.dropWhile (fun c => c ≠ ':')).drop 1).takeWhile (fun c => c ≠ ':')
  (atoiDigits hh : Int) * 60 + (atoiDigits mm : Int)

/-- resolveLocalTimeToUTC converts a local time-of-day on a specific date
to a UTC instant (minutes since epoch), DST-aware, translated from the
generator's resolveLocalTimeToUTC which builds the wall clock with
time.Date in the recipient's location and converts to UTC. -/
def resolveLocalTimeToUTC (date : Date) (timeOfDay : String) (tz : Tz) : Int :=
  goDate tz (daysFromCivil date * 1440 + parseTimeOfDay timeOfDay)

/-! ## Recurrence rules -/

/-- RecurrenceRule represents when a recurring event occurs, translated
from the generator design source. -/
structure RecurrenceRule where
  frequency : String
  times : List String
  daysOfWeek : List String
  dayOfMonth : Int
deriving DecidableEq, Repr

/-- MatchesDate returns true if the given date is an occurrence of this
rule, translated clause by clause from the Go switch statement. -/
def RecurrenceRule.MatchesDate (r : RecurrenceRule) (date : Date) : Bool :=
  if r.frequency == "daily" then
    true
  else if r.frequency == "weekly" then
    if r.daysOfWeek.length == 0 then
      true
    else
      r.daysOfWeek.any (fun d => d == weekdayAbbr date)
  else if r.frequency == "monthly" then
    (date.day : Int) == r.dayOfMonth
  else
    false

/-! ## Data model

Rows of the tasks, medication_administrations and shifts tables, and the
template/schedule records generation reads, translated from the schema
and the generation pseudocode.  Encrypted content fields are opaque
strings copied verbatim; identifiers are opaque naturals. -/

structure TaskTemplate where
  id : Nat
  householdId : Nat
  careRecipientId : Nat
  rule : RecurrenceRule
  titleEnc : String
  isActive : Bool
deriving DecidableEq, Repr

structure Task where
  templateId : Option Nat
  careRecipientId : Nat
  titleEnc : String
  dueAt : Int
  completed : Bool
  skipped : Bool
  notesEnc : Option String
  deletedAt : Option Int
deriving DecidableEq, Repr

structure MedSchedule where
  id : Nat
  timeOfDay : String
  daysOfWeek : Option (List String)
  isActive : Bool
deriving DecidableEq, Repr

structure Medication where
  id : Nat
  careRecipientId : Nat
  isPrn : Bool
  discontinuedAt : Option Int
  schedules : List MedSchedule
deriving DecidableEq, Repr

structure MedAdmin where
  medicationId : Nat
  scheduleId : Option Nat
  careRecipientId : Nat
  scheduledAt : Int
  status : String
  notesEnc : Option String
  deletedAt : Option Int
deriving DecidableEq, Repr

structure ShiftTemplate where
  id : Nat
  careRecipientId : Nat
  rule : RecurrenceRule
  shiftStartTime : String
  shiftEndTime : String
  assignedTo : Option Nat
  isActive : Bool
deriving DecidableEq, Repr

structure Shift where
  id : Nat
  templateId : Option Nat
  careRecipientId : Nat
  startsAt : Int
  endsAt : Int
  assignedTo : Option Nat
  status : String
  deletedAt : Option Int
deriving DecidableEq, Repr

structure CareRecipient where
  id : Nat
  householdId : Nat
  timezone : Tz
  taskTemplates : List TaskTemplate
  medications : List Medication
  shiftTemplates : List ShiftTemplate
deriving DecidableEq, Repr

/-! ## Idempotent insertion (INSERT OR IGNORE against a partial unique index)

The dedup predicates translate the three partial unique indexes:
idx_tasks_dedup ON tasks(template_id, due_at)
  WHERE template_id IS NOT NULL AND deleted_at IS NULL;
idx_med_admin_dedup ON medication_administrations(medication_id,
  schedule_id, scheduled_at) WHERE schedule_id IS NOT NULL;
idx_shifts_dedup ON shifts(template_id, starts_at)
  WHERE template_id IS NOT NULL.
An insert conflicts when both the new row and an existing row fall under
the index predicate with equal key columns; INSERT OR IGNORE turns the
conflict into a no-op. -/

def taskDup (x u : Task) : Bool :=
  x.templateId.isSome && x.deletedAt == none &&
  u.templateId == x.templateId && u.dueAt == x.dueAt && u.deletedAt == none

def medDup (x u : MedAdmin) : Bool :=
  x.scheduleId.isSome && u.scheduleId == x.scheduleId &&
  u.medicationId == x.medicationId && u.scheduledAt == x.scheduledAt

def shiftDup (x u : Shift) : Bool :=
  x.templateId.isSome && u.templateId == x.templateId && u.startsAt == x.startsAt

/-- INSERT OR IGNORE of one row: a no-op returning 0 created when some
existing row conflicts under the dedup predicate, an append returning 1
created otherwise. -/
def insertOrIgnore (dup : α → α → Bool) (s : List α) (x : α) : List α × Nat :=
  if s.any (fun u => dup x u) then (s, 0) else (s ++ [x], 1)

/-- Sequential INSERT OR IGNORE of a stream of rows, accumulating the
created count. -/
def insertRows (dup : α → α → Bool) : List α → List α → List α × Nat
  | s, [] => (s, 0)
  | s, x :: rest =>
    let p := insertOrIgnore dup s x
    let q := insertRows dup p.1 rest
    (q.1, p.2 + q.2)

/-! ## The generation engine -/

/-- Grace period (minutes) for late-day instance creation; config key
late_instance_grace_period_hours, default 2 hours. -/
def lateInstanceGracePeriod : Int := 2 * 60

/-- shouldGenerateInstance: future instants always generate; past
instants generate only within the grace period. -/
def shouldGenerateInstance (scheduledUTC now : Int) : Bool :=
  if now < scheduledUTC then
    true
  else
    now - scheduledUTC ≤ lateInstanceGracePeriod

/-- Task rows a template contributes on one calendar day (day number):
the recurrence rule must match the date, each time-of-day resolves
through the recipient timezone, and instants beyond the late grace are
skipped; content fields are copied from the template. -/
def taskRowsForDate (t : TaskTemplate) (tz : Tz) (now : Int) (day : Int) : List Task :=
  if t.rule.MatchesDate (civilFromDays day) then
    t.rule.times.filterMap (fun tod =>
      let u := resolveLocalTimeToUTC (civilFromDays day) tod tz
      if shouldGenerateInstance u now then
        some { templateId := some t.id, careRecipientId := t.careRecipientId,
               titleEnc := t.titleEnc, dueAt := u, completed := false,
               skipped := false, notesEnc := none, deletedAt := none }
      else none)
  else []

/-- All task rows of one recipient over a date range: active templates
only, dates in order. -/
def taskRowsAll (r : CareRecipient) (days : List Int) (now : Int) : List Task :=
  (r.taskTemplates.filter (fun t => t.isActive)).flatMap (fun t =>
    days.flatMap (fun day => taskRowsForDate t r.timezone now day))

/-- Medication administration rows one schedule contributes on one day:
generated when days_of_week is NULL or contains the date's weekday. -/
def medRowsForDate (m : Medication) (sch : MedSchedule) (tz : Tz) (now : Int)
    (day : Int) : List MedAdmin :=
  let dayMatches :=
    match sch.daysOfWeek with
    | none => true
    | some ds => ds.any (fun d => d == weekdayAbbr (civilFromDays day))
  if dayMatches then
    let u := resolveLocalTimeToUTC (civilFromDays day) sch.timeOfDay tz
    if shouldGenerateInstance u now then
      [{ medicationId := m.id, scheduleId := some sch.id,
         careRecipientId := m.careRecipientId, scheduledAt := u,
         status := "pending", notesEnc := none, deletedAt := none }]
    else []
  else []

/-- All medication administration rows of one recipient over a range:
PRN and discontinued medications are skipped entirely, inactive
schedules are skipped. -/
def medRowsAll (r : CareRecipient) (days : List Int) (now : Int) : List MedAdmin :=
  (r.medications.filter (fun m => !m.isPrn && m.discontinuedAt == none)).flatMap
    (fun m => (m.schedules.filter (fun sch => sch.isActive)).flatMap
      (fun sch => days.flatMap (fun day => medRowsForDate m sch r.timezone now day)))

/-- Shift rows a shift template contributes on one day: both endpoint
times resolve on the start date; when the resolved end is not after the
resolved start (overnight shift) 24 hours are added to the end. -/
def shiftRowsForDate (st : ShiftTemplate) (tz : Tz) (now : Int) (day : Int) : List Shift :=
  if st.rule.MatchesDate (civilFromDays day) then
    let startUTC := resolveLocalTimeToUTC (civilFromDays day) st.shiftStartTime tz
    let endUTC := resolveLocalTimeToUTC (civilFromDays day) st.shiftEndTime tz
    let endAdj := if endUTC ≤ startUTC then endUTC + 24 * 60 else endUTC
    if shouldGenerateInstance startUTC now then
      [{ id := 0, templateId := some st.id, careRecipientId := st.careRecipientId,
         startsAt := startUTC, endsAt := endAdj, assignedTo := st.assignedTo,
         status := "scheduled", deletedAt := none }]
    else []
  else []

/-- All shift rows of one recipient over a range. -/
def shiftRowsAll (r : CareRecipient) (days : List Int) (now : Int) : List Shift :=
  (r.shiftTemplates.filter (fun st => st.isActive)).flatMap (fun st =>
    days.flatMap (fun day => shiftRowsForDate st r.timezone now day))

/-- Persistent instance stores (the three instance tables). -/
structure GenState where
  tasks : List Task
  medAdmins : List MedAdmin
  shifts : List Shift
deriving DecidableEq, Repr

/-- Core generation for one care recipient over a date range: INSERT OR
IGNORE every row the templates produce, returning the new state and the
number of instances actually created. -/
def generateForCareRecipient (r : CareRecipient) (days : List Int) (now : Int)
    (st : GenState) : GenState × Nat :=
  let pt := insertRows taskDup st.tasks (taskRowsAll r days now)
  let pm := insertRows medDup st.medAdmins (medRowsAll r days now)
  let ps := insertRows shiftDup st.shifts (shiftRowsAll r days now)
  ({ tasks := pt.1, medAdmins := pm.1, shifts := ps.1 }, pt.2 + pm.2 + ps.2)

/-- GenerateAllInstances over a fixed date range: recipients processed
sequentially, created counts summed. -/
def generateAllInstances (recips : List CareRecipient) (days : List Int) (now : Int)
    (st : GenState) : GenState × Nat :=
  match recips with
  | [] => (st, 0)
  | r :: rest =>
    let p := generateForCareRecipient r days now st
    let q := generateAllInstances rest days now p.1
    (q.1, p.2 + q.2)

/-! ## Generation window -/

/-- Modelled from the spec: getConfigInt reads an integer setting from
the key/value config table, falling back to the given default when the
key is absent (the getter's body is not shown in the design source;
values are stored as integers here to keep lookups executable). -/
def getConfigInt (cfg : List (String × Int)) (key : String) (dflt : Int) : Int :=
  match cfg.find? (fun kv => kv.1 == key) with
  | some kv => kv.2
  | none => dflt

/-- Local civil day number of a UTC instant in a timezone, as
time.Now().In(loc) truncated to midnight produces. -/
def localToday (now : Int) (tz : Tz) : Int :=
  Int.fdiv (now + tzOffsetAt tz now) 1440

/-- GetGenerationWindowForRecipient: the half-open day-number range
starting at today in the recipient's timezone and extending
generation_window_days (default 3) days. -/
def getGenerationWindowForRecipient (now : Int) (tz : Tz)
    (cfg : List (String × Int)) : Int × Int :=
  let today := localToday now tz
  let windowDays := getConfigInt cfg "generation_window_days" 3
  (today, today + windowDays)

/-- Consecutive day numbers from start, n days long. -/
def windowDatesAux (start : Int) : Nat → List Int
  | 0 => []
  | n + 1 => start :: windowDatesAux (start + 1) n

/-- The list of day numbers a window covers, in order. -/
def windowDates (w : Int × Int) : List Int :=
  windowDatesAux w.1 (w.2 - w.1).toNat

/-! ## Reconciliation and cleanup soft-deletes

Each soft-delete below is a row-wise translation of its UPDATE
statement: rows matching every WHERE clause get deleted_at set to the
current timestamp, all other rows are returned unchanged. -/

/-- SoftDeleteFuturePendingTasksByTemplate: UPDATE tasks SET deleted_at
WHERE template_id matches AND due_at is after the cutoff AND completed=0
AND skipped=0 AND notes_enc IS NULL AND deleted_at IS NULL. -/
def softDeleteFuturePendingTasksByTemplate (templateId : Nat) (after : Int)
    (store : List Task) : List Task :=
  store.map (fun t =>
    if t.templateId == some templateId && decide (after < t.dueAt) &&
       !t.completed && !t.skipped && t.notesEnc == none && t.deletedAt == none then
      { t with deletedAt := some after }
    else t)

/-- Modelled from the spec: SoftDeleteFuturePendingTasksByRecipient (its
SQL body is not in the source; only the reconciliation call site names
it) soft-deletes the recipient's future, pending, unannotated task
instances, the same filter as the by-template variant but scoped by
care_recipient_id. -/
def softDeleteFuturePendingTasksByRecipient (recipientId : Nat) (after : Int)
    (store : List Task) : List Task :=
  store.map (fun t =>
    if t.careRecipientId == recipientId && decide (after < t.dueAt) &&
       !t.completed && !t.skipped && t.notesEnc == none && t.deletedAt == none then
      { t with deletedAt := some after }
    else t)

/-- DeleteFutureUncompletedTasks: UPDATE tasks SET deleted_at WHERE
template_id matches AND due_at is after the cutoff AND completed=0 AND
skipped=0 AND deleted_at IS NULL — the deactivation cleanup's query.
Unlike the template-edit reconciliation query it carries no notes_enc
IS NULL clause, so it also selects annotated pending instances. -/
def deleteFutureUncompletedTasks (templateId : Nat) (after : Int)
    (store : List Task) : List Task :=
  store.map (fun t =>
    if t.templateId == some templateId && decide (after < t.dueAt) &&
       !t.completed && !t.skipped && t.deletedAt == none then
      { t with deletedAt := some after }
    else t)

/-- CleanupDeactivatedTaskTemplate: on template deactivation,
soft-delete the template's future uncompleted instances at the current
time via DeleteFutureUncompletedTasks. -/
def cleanupDeactivatedTaskTemplate (templateId : Nat) (now : Int)
    (store : List Task) : List Task :=
  deleteFutureUncompletedTasks templateId now store

/-- SoftDeleteFuturePendingMedAdminsBySchedule: UPDATE
medication_administrations SET deleted_at WHERE schedule_id matches AND
scheduled_at is after the cutoff AND status='pending' AND deleted_at IS
NULL. -/
def softDeleteFuturePendingMedAdminsBySchedule (scheduleId : Nat) (after : Int)
    (store : List MedAdmin) : List MedAdmin :=
  store.map (fun a =>
    if a.scheduleId == some scheduleId && decide (after < a.scheduledAt) &&
       a.status == "pending" && a.deletedAt == none then
      { a with deletedAt := some after }
    else a)

/-- Modelled from the spec: SoftDeleteFuturePendingMedAdminsByRecipient
(SQL body not in the source) soft-deletes the recipient's future,
pending, unannotated administrations, scoped by care_recipient_id. -/
def softDeleteFuturePendingMedAdminsByRecipient (recipientId : Nat) (after : Int)
    (store : List MedAdmin) : List MedAdmin :=
  store.map (fun a =>
    if a.careRecipientId == recipientId && decide (after < a.scheduledAt) &&
       a.status == "pending" && a.notesEnc == none && a.deletedAt == none then
      { a with deletedAt := some after }
    else a)

/-- Modelled from the spec: SoftDeleteFuturePendingShiftsByRecipient
(SQL body not in the source) soft-deletes the recipient's future shifts
still in status scheduled. -/
def softDeleteFuturePendingShiftsByRecipient (recipientId : Nat) (after : Int)
    (store : List Shift) : List Shift :=
  store.map (fun s =>
    if s.careRecipientId == recipientId && decide (after < s.startsAt) &&
       s.status == "scheduled" && s.deletedAt == none then
      { s with deletedAt := some after }
    else s)

/-- ReconcileTaskTemplate: soft-delete the old template's future pending
unannotated instances, then regenerate from the updated template over
the window (INSERT OR IGNORE absorbs any overlap). -/
def reconcileTaskTemplate (oldTemplate newTemplate : TaskTemplate) (tz : Tz)
    (days : List Int) (now : Int) (store : List Task) : List Task :=
  let cleaned := softDeleteFuturePendingTasksByTemplate oldTemplate.id now store
  (insertRows taskDup cleaned
    (days.flatMap (fun day => taskRowsForDate newTemplate tz now day))).1

/-- ReconcileTimezoneChange: soft-delete all three kinds of future
pending instances of the recipient, then regenerate the recipient over
its window with the new timezone. -/
def reconcileTimezoneChange (r : CareRecipient) (days : List Int) (now : Int)
    (st : GenState) : GenState × Nat :=
  let cleaned : GenState :=
    { tasks := softDeleteFuturePendingTasksByRecipient r.id now st.tasks,
      medAdmins := softDeleteFuturePendingMedAdminsByRecipient r.id now st.medAdmins,
      shifts := softDeleteFuturePendingShiftsByRecipient r.id now st.shifts }
  generateForCareRecipient r days now cleaned

/-! ## Status checker: missed shifts and the shift state machine -/

/-- Grace period (minutes) before a scheduled shift with no clock-in is
considered missed; config key missed_shift_grace_minutes, default 30. -/
def missedShiftGrace : Int := 30

/-- GetMissedShifts: shifts WHERE status='scheduled' AND starts_at is
before the threshold AND deleted_at IS NULL. -/
def getMissedShifts (threshold : Int) (store : List Shift) : List Shift :=
  store.filter (fun s =>
    s.status == "scheduled" && decide (s.startsAt < threshold) && s.deletedAt == none)

/-- MarkShiftMissed: UPDATE shifts SET status='missed' WHERE id matches
AND status='scheduled'. -/
def markShiftMissed (id : Nat) (store : List Shift) : List Shift :=
  store.map (fun s =>
    if s.id == id && s.status == "scheduled" then { s with status := "missed" } else s)

/-- CheckMissedShifts: one status-checker pass, marking every shift
selected by GetMissedShifts (threshold now minus the grace period). -/
def checkMissedShifts (now : Int) (store : List Shift) : List Shift :=
  (getMissedShifts (now - missedShiftGrace) store).foldl
    (fun acc s => markShiftMissed s.id acc) store

/-- Modelled from the spec: clockIn performs the documented transition
scheduled to active for one shift (the clock-in handler's body is not in
the source; the design source documents the transition table). -/
def clockIn (id : Nat) (store : List Shift) : List Shift :=
  store.map (fun s =>
    if s.id == id && s.status == "scheduled" then { s with status := "active" } else s)

/-- Modelled from the spec: acceptSwap performs the documented
transition scheduled to swapped for one shift. -/
def acceptSwap (id : Nat) (store : List Shift) : List Shift :=
  store.map (fun s =>
    if s.id == id && s.status == "scheduled" then { s with status := "swapped" } else s)

/-- Modelled from the spec: clockOut performs the documented transition
active to completed for one shift. -/
def clockOut (id : Nat) (store : List Shift) : List Shift :=
  store.map (fun s =>
    if s.id == id && s.status == "active" then { s with status := "completed" } else s)

/-! ## Housekeeping worker -/

structure Session where
  id : Nat
  userId : Nat
  expiresAt : Int
deriving DecidableEq, Repr

structure LoginAttempt where
  id : Nat
  attemptedAt : Int
  succeeded : Bool
deriving DecidableEq, Repr

structure Notification where
  id : Nat
  createdAt : Int
  readAt : Option Int
  dismissedAt : Option Int
deriving DecidableEq, Repr

/-- Retention window for login attempts: 7 days, in minutes. -/
def loginAttemptRetention : Int := 7 * 1440

/-- Retention window for read/dismissed notifications: 90 days. -/
def notificationRetention : Int := 90 * 1440

/-- PruneExpiredSessions: DELETE FROM sessions WHERE expires_at < now
(the housekeeping worker's own query; the auth layer's
DeleteExpiredSessions variant compares with <=). -/
def pruneExpiredSessions (now : Int) (store : List Session) : List Session :=
  store.filter (fun s => !decide (s.expiresAt < now))

/-- PruneOldLoginAttempts: DELETE FROM login_attempts WHERE attempted_at
is older than 7 days. -/
def pruneOldLoginAttempts (now : Int) (store : List LoginAttempt) : List LoginAttempt :=
  store.filter (fun a => !decide (a.attemptedAt < now - loginAttemptRetention))

/-- PruneOldNotifications: DELETE FROM notifications WHERE created_at is
older than 90 days AND (read_at IS NOT NULL OR dismissed_at IS NOT
NULL); unread, undismissed notifications are never deleted. -/
def pruneOldNotifications (now : Int) (store : List Notification) : List Notification :=
  store.filter (fun n =>
    !(decide (n.createdAt < now - notificationRetention) &&
      (n.readAt != none || n.dismissedAt != none)))

/-- One housekeeping tick over the three transient stores. -/
def housekeepingRun (now : Int) (sessions : List Session)
    (attempts : List LoginAttempt) (notifications : List Notification) :
    List Session × List LoginAttempt × List Notification :=
  (pruneExpiredSessions now sessions,
   pruneOldLoginAttempts now attempts,
   pruneOldNotifications now notifications)

end Shelterkin

namespace Shelterkin

/-! ## Quick sanity examples on concrete dates -/

example : weekdayAbbr { year := 2026, month := 3, day := 8 } = "sun" := by decide
example : weekdayAbbr { year := 2026, month := 3, day := 16 } = "mon" := by decide
example : firstSundayOfMonth 2026 3 = 1 := by decide
example : firstSundayOfMonth 2026 11 = 1 := by decide
example : civilFromDays (daysFromCivil { year := 2026, month := 3, day := 8 }) =
    { year := 2026, month := 3, day := 8 } := by decide
example : resolveLocalTimeToUTC { year := 2026, month := 3, day := 8 } "08:00" .newYork =
    daysFromCivil { year := 2026, month := 3, day := 8 } * 1440 + 12 * 60 := by decide
example : resolveLocalTimeToUTC { year := 2026, month := 3, day := 9 } "08:00" .newYork =
    daysFromCivil { year := 2026, month := 3, day := 9 } * 1440 + 12 * 60 := by decide
example : resolveLocalTimeToUTC { year := 2026, month := 3, day := 7 } "08:00" .newYork =
    daysFromCivil { year := 2026, month := 3, day := 7 } * 1440 + 13 * 60 := by decide

/-! ## Generic facts about sequential INSERT OR IGNORE -/

/-- A row stream is covered by a store when every row conflicts with
some stored row under the dedup predicate. -/
def covered (dup : α → α → Bool) (s rows : List α) : Prop :=
  ∀ r ∈ rows, ∃ u ∈ s, dup r u = true

theorem covered_mono {dup : α → α → Bool} {s s' rows : List α}
    (hsub : ∀ x ∈ s, x ∈ s') (h : covered dup s rows) : covered dup s' rows := by
  intro r hr
  obtain ⟨u, hu, hd⟩ := h r hr
  exact ⟨u, hsub u hu, hd⟩

theorem mem_insertRows_left (dup : α → α → Bool) (rows : List α) :
    ∀ (s : List α) (x : α), x ∈ s → x ∈ (insertRows dup s rows).1 := by
  induction rows with
  | nil => intro s x hx; simpa [insertRows] using hx
  | cons r rest ih =>
    intro s x hx
    simp only [insertRows, insertOrIgnore]
    by_cases h : s.any (fun u => dup r u) = true
    · simpa [h] using ih s x hx
    · exact by simpa [h] using ih (s ++ [r]) x (List.mem_append_left _ hx)

theorem mem_insertRows (dup : α → α → Bool) (rows : List α) :
    ∀ (s : List α) (x : α), x ∈ (insertRows dup s rows).1 → x ∈ s ∨ x ∈ rows := by
  induction rows with
  | nil => intro s x hx; exact Or.inl (by simpa [insertRows] using hx)
  | cons r rest ih =>
    intro s x hx
    simp only [insertRows, insertOrIgnore] at hx
    by_cases h : s.any (fun u => dup r u) = true
    · rw [if_pos h] at hx
      rcases ih s x hx with hs | hr
      · exact Or.inl hs
      · exact Or.inr (List.mem_cons_of_mem _ hr)
    · rw [if_neg h] at hx
      rcases ih (s ++ [r]) x hx with hs | hr
      · rcases List.mem_append.mp hs with h1 | h2
        · exact Or.inl h1
        · exact Or.inr (by simpa using Or.inl (List.mem_singleton.mp h2))
      · exact Or.inr (List.mem_cons_of_mem _ hr)

theorem insertRows_covered (dup : α → α → Bool) (rows : List α) :
    ∀ s : List α, (∀ r ∈ rows, dup r r = true) →
      covered dup (insertRows dup s rows).1 rows := by
  induction rows with
  | nil => intro s _ r hr; cases hr
  | cons x rest ih =>
    intro s hrefl r hr
    simp only [insertRows, insertOrIgnore]
    by_cases h : s.any (fun u => dup x u) = true
    · rw [if_pos h]
      rcases List.mem_cons.mp hr with rfl | hmem
      · obtain ⟨u, hu, hd⟩ := List.any_eq_true.mp h
        exact ⟨u, mem_insertRows_left dup rest s u hu, hd⟩
      · exact ih s (fun q hq => hrefl q (List.mem_cons_of_mem _ hq)) r hmem
    · rw [if_neg h]
      rcases List.mem_cons.mp hr with rfl | hmem
      · refine ⟨r, mem_insertRows_left dup rest (s ++ [r]) r ?_, hrefl r hr⟩
        simp
      · exact ih (s ++ [x]) (fun q hq => hrefl q (List.mem_cons_of_mem _ hq)) r hmem

theorem insertRows_of_covered (dup : α → α → Bool) (rows : List α) :
    ∀ s : List α, covered dup s rows → insertRows dup s rows = (s, 0) := by
  induction rows with
  | nil => intro s _; rfl
  | cons x rest ih =>
    intro s hcov
    obtain ⟨u, hu, hd⟩ := hcov x (List.mem_cons_self x rest)
    have hany : s.any (fun v => dup x v) = true := List.any_eq_true.mpr ⟨u, hu, hd⟩
    have hrest : covered dup s rest := fun r hr => hcov r (List.mem_cons_of_mem _ hr)
    simp [insertRows, insertOrIgnore, hany, ih s hrest]

/-! ## Generated rows are self-conflicting (they fall under the
partial dedup indexes) -/

theorem taskRowsAll_self_dup (r : CareRecipient) (days : List Int) (now : Int) :
    ∀ x ∈ taskRowsAll r days now, taskDup x x = true := by
  intro x hx
  simp only [taskRowsAll, List.mem_flatMap] at hx
  obtain ⟨t, _, day, _, hrow⟩ := hx
  simp only [taskRowsForDate] at hrow
  by_cases hm : t.rule.MatchesDate (civilFromDays day) = true
  · rw [if_pos hm] at hrow
    obtain ⟨tod, _, hsome⟩ := List.mem_filterMap.mp hrow
    by_cases hg : shouldGenerateInstance (resolveLocalTimeToUTC (civilFromDays day) tod r.timezone) now = true
    · simp only [hg, if_pos] at hsome
      cases hsome
      simp [taskDup]
    · simp [hg] at hsome
  · rw [if_neg hm] at hrow
    cases hrow

theorem medRowsAll_self_dup (r : CareRecipient) (days : List Int) (now : Int) :
    ∀ x ∈ medRowsAll r days now, medDup x x = true := by
  intro x hx
  simp only [medRowsAll, List.mem_flatMap] at hx
  obtain ⟨m, _, sch, _, day, _, hrow⟩ := hx
  simp only [medRowsForDate] at hrow
  by_cases hm : (match sch.daysOfWeek with
      | none => true
      | some ds => ds.any (fun d => d == weekdayAbbr (civilFromDays day))) = true
  · rw [if_pos hm] at hrow
    by_cases hg : shouldGenerateInstance (resolveLocalTimeToUTC (civilFromDays day) sch.timeOfDay r.timezone) now = true
    · rw [if_pos hg] at hrow
      rcases List.mem_singleton.mp hrow with rfl
      simp [medDup]
    · rw [if_neg hg] at hrow
      cases hrow
  · rw [if_neg hm] at hrow
    cases hrow

theorem shiftRowsAll_self_dup (r : CareRecipient) (days : List Int) (now : Int) :
    ∀ x ∈ shiftRowsAll r days now, shiftDup x x = true := by
  intro x hx
  simp only [shiftRowsAll, List.mem_flatMap] at hx
  obtain ⟨st, _, day, _, hrow⟩ := hx
  simp only [shiftRowsForDate] at hrow
  by_cases hm : st.rule.MatchesDate (civilFromDays day) = true
  · rw [if_pos hm] at hrow
    by_cases hg : shouldGenerateInstance (resolveLocalTimeToUTC (civilFromDays day) st.shiftStartTime r.timezone) now = true
    · rw [if_pos hg] at hrow
      rcases List.mem_singleton.mp hrow with rfl
      simp [shiftDup]
    · rw [if_neg hg] at hrow
      cases hrow
  · rw [if_neg hm] at hrow
    cases hrow

/-! ## Idempotency of the engine -/

/-- A state covers a recipient when every row the recipient's templates
would produce over the range already conflicts with a stored row. -/
def stateCovers (r : CareRecipient) (days : List Int) (now : Int) (st : GenState) : Prop :=
  covered taskDup st.tasks (taskRowsAll r days now) ∧
  covered medDup st.medAdmins (medRowsAll r days now) ∧
  covered shiftDup st.shifts (shiftRowsAll r days now)

theorem generateForCareRecipient_mono (r : CareRecipient) (days : List Int)
    (now : Int) (st : GenState) :
    (∀ x ∈ st.tasks, x ∈ (generateForCareRecipient r days now st).1.tasks) ∧
    (∀ x ∈ st.medAdmins, x ∈ (generateForCareRecipient r days now st).1.medAdmins) ∧
    (∀ x ∈ st.shifts, x ∈ (generateForCareRecipient r days now st).1.shifts) :=
  ⟨fun x hx => mem_insertRows_left taskDup _ st.tasks x hx,
   fun x hx => mem_insertRows_left medDup _ st.medAdmins x hx,
   fun x hx => mem_insertRows_left shiftDup _ st.shifts x hx⟩

theorem stateCovers_mono {r : CareRecipient} {days : List Int} {now : Int}
    {st st' : GenState}
    (h1 : ∀ x ∈ st.tasks, x ∈ st'.tasks)
    (h2 : ∀ x ∈ st.medAdmins, x ∈ st'.medAdmins)
    (h3 : ∀ x ∈ st.shifts, x ∈ st'.shifts)
    (h : stateCovers r days now st) : stateCovers r days now st' :=
  ⟨covered_mono h1 h.1, covered_mono h2 h.2.1, covered_mono h3 h.2.2⟩

theorem generateForCareRecipient_covers (r : CareRecipient) (days : List Int)
    (now : Int) (st : GenState) :
    stateCovers r days now (generateForCareRecipient r days now st).1 :=
  ⟨insertRows_covered taskDup _ st.tasks (taskRowsAll_self_dup r days now),
   insertRows_covered medDup _ st.medAdmins (medRowsAll_self_dup r days now),
   insertRows_covered shiftDup _ st.shifts (shiftRowsAll_self_dup r days now)⟩

theorem generateForCareRecipient_of_covers {r : CareRecipient} {days : List Int}
    {now : Int} {st : GenState} (h : stateCovers r days now st) :
    generateForCareRecipient r days now st = (st, 0) := by
  unfold generateForCareRecipient
  rw [insertRows_of_covered taskDup _ st.tasks h.1,
      insertRows_of_covered medDup _ st.medAdmins h.2.1,
      insertRows_of_covered shiftDup _ st.shifts h.2.2]
  rfl

theorem generateAllInstances_mono (recips : List CareRecipient) (days : List Int)
    (now : Int) : ∀ st : GenState,
    (∀ x ∈ st.tasks, x ∈ (generateAllInstances recips days now st).1.tasks) ∧
    (∀ x ∈ st.medAdmins, x ∈ (generateAllInstances recips days now st).1.medAdmins) ∧
    (∀ x ∈ st.shifts, x ∈ (generateAllInstances recips days now st).1.shifts) := by
  induction recips with
  | nil => intro st; exact ⟨fun x hx => hx, fun x hx => hx, fun x hx => hx⟩
  | cons r rest ih =>
    intro st
    have h1 := generateForCareRecipient_mono r days now st
    have h2 := ih (generateForCareRecipient r days now st).1
    exact ⟨fun x hx => h2.1 x (h1.1 x hx),
           fun x hx => h2.2.1 x (h1.2.1 x hx),
           fun x hx => h2.2.2 x (h1.2.2 x hx)⟩

theorem generateAllInstances_covers (recips : List CareRecipient) (days : List Int)
    (now : Int) : ∀ st : GenState, ∀ r ∈ recips,
      stateCovers r days now (generateAllInstances recips days now st).1 := by
  induction recips with
  | nil => intro st r hr; cases hr
  | cons q rest ih =>
    intro st r hr
    rcases List.mem_cons.mp hr with rfl | hmem
    · have hcov := generateForCareRecipient_covers r days now st
      have hm := generateAllInstances_mono rest days now (generateForCareRecipient r days now st).1
      exact stateCovers_mono hm.1 hm.2.1 hm.2.2 hcov
    · exact ih (generateForCareRecipient q days now st).1 r hmem

theorem generateAllInstances_of_covers (recips : List CareRecipient) (days : List Int)
    (now : Int) : ∀ st : GenState, (∀ r ∈ recips, stateCovers r days now st) →
      generateAllInstances recips days now st = (st, 0) := by
  induction recips with
  | nil => intro st _; rfl
  | cons q rest ih =>
    intro st h
    have hq : generateForCareRecipient q days now st = (st, 0) :=
      generateForCareRecipient_of_covers (h q (List.mem_cons_self q rest))
    have hrest := ih st (fun r hr => h r (List.mem_cons_of_mem _ hr))
    simp [generateAllInstances, hq, hrest]

/-- C1: Generation is idempotent — for every template set (recipients
with their templates) and every date range, a second run over the same
range creates zero instances and returns exactly the state left by the
first run; and a duplicate-key INSERT OR IGNORE attempt against any of
the three stores is a no-op returning zero created, never an error. -/
theorem claim1_generation_idempotent (recips : List CareRecipient) (days : List Int)
    (now : Int) (s0 : GenState) :
    (generateAllInstances recips days now
        (generateAllInstances recips days now s0).1).2 = 0 ∧
    (generateAllInstances recips days now
        (generateAllInstances recips days now s0).1).1 =
      (generateAllInstances recips days now s0).1 ∧
    (∀ (s : List Task) (x : Task), (∃ u ∈ s, taskDup x u = true) →
        insertOrIgnore taskDup s x = (s, 0)) ∧
    (∀ (s : List MedAdmin) (x : MedAdmin), (∃ u ∈ s, medDup x u = true) →
        insertOrIgnore medDup s x = (s, 0)) ∧
    (∀ (s : List Shift) (x : Shift), (∃ u ∈ s, shiftDup x u = true) →
        insertOrIgnore shiftDup s x = (s, 0)) := by
  have hsecond : generateAllInstances recips days now
      (generateAllInstances recips days now s0).1 =
      ((generateAllInstances recips days now s0).1, 0) :=
    generateAllInstances_of_covers recips days now _
      (generateAllInstances_covers recips days now s0)
  refine ⟨by rw [hsecond], by rw [hsecond], ?_, ?_, ?_⟩
  · intro s x hx
    simp [insertOrIgnore, List.any_eq_true.mpr hx]
  · intro s x hx
    simp [insertOrIgnore, List.any_eq_true.mpr hx]
  · intro s x hx
    simp [insertOrIgnore, List.any_eq_true.mpr hx]

/-- Concrete daily 8:00 recurrence rule used by witnesses. -/
def demoDailyRule : RecurrenceRule :=
  { frequency := "daily", times := ["08:00"], daysOfWeek := [], dayOfMonth := 0 }

/-- Concrete task template used by witnesses. -/
def demoTaskTemplate : TaskTemplate :=
  { id := 10, householdId := 1, careRecipientId := 1, rule := demoDailyRule,
    titleEnc := "t", isActive := true }

/-- Concrete care recipient (New York timezone) used by witnesses. -/
def demoRecipient : CareRecipient :=
  { id := 1, householdId := 1, timezone := .newYork,
    taskTemplates := [demoTaskTemplate], medications := [], shiftTemplates := [] }

/-- Empty instance stores used by witnesses. -/
def emptyState : GenState := { tasks := [], medAdmins := [], shifts := [] }

/-- Witness for claim1_generation_idempotent: a concrete recipient with
one daily task template over a three-day range; the second run creates
zero instances. -/
theorem claim1_generation_idempotent_witness :
    (generateAllInstances [demoRecipient] (windowDates (20519, 20522)) 0
        (generateAllInstances [demoRecipient] (windowDates (20519, 20522)) 0
          emptyState).1).2 = 0 :=
  (claim1_generation_idempotent [demoRecipient] (windowDates (20519, 20522)) 0
    emptyState).1

/-- C2: MatchesDate returns true for every date when the frequency is
daily; for weekly exactly when the day-of-week set is empty or contains
the date's weekday; for monthly exactly when the day-of-month equals the
configured day, so a configured day exceeding the month's length matches
no valid date of that month (no clamping); and false for any unknown
frequency, with no error case (the function is total). -/
theorem claim2_matchesDate_characterization (r : RecurrenceRule) (d : Date)
    (hd : validDate d) :
    (r.frequency = "daily" → r.MatchesDate d = true) ∧
    (r.frequency = "weekly" →
      (r.MatchesDate d = true ↔ r.daysOfWeek = [] ∨ weekdayAbbr d ∈ r.daysOfWeek)) ∧
    (r.frequency = "monthly" →
      (r.MatchesDate d = true ↔ (d.day : Int) = r.dayOfMonth)) ∧
    (r.frequency = "monthly" → (daysInMonth d.year d.month : Int) < r.dayOfMonth →
      r.MatchesDate d = false) ∧
    (r.frequency ≠ "daily" → r.frequency ≠ "weekly" → r.frequency ≠ "monthly" →
      r.MatchesDate d = false) := by
  obtain ⟨-, -, -, hday⟩ := hd
  refine ⟨?_, ?_, ?_, ?_, ?_⟩
  · intro h
    simp [RecurrenceRule.MatchesDate, h]
  · intro h
    have hne : r.frequency ≠ "daily" := by simp [h]
    by_cases hempty : r.daysOfWeek = []
    · simp [RecurrenceRule.MatchesDate, h, hne, hempty]
    · have hlen : (r.daysOfWeek.length == 0) = false :=
        beq_eq_false_iff_ne.mpr (by simpa [List.length_eq_zero] using hempty)
      have hval : r.MatchesDate d = r.daysOfWeek.any (fun x => x == weekdayAbbr d) := by
        simp [RecurrenceRule.MatchesDate, h, hne, hlen]
      rw [hval]
      simp only [List.any_eq_true, beq_iff_eq]
      constructor
      · rintro ⟨x, hx, rfl⟩
        exact Or.inr hx
      · rintro (hm | hm)
        · exact absurd hm hempty
        · exact ⟨weekdayAbbr d, hm, rfl⟩
  · intro h
    have hne : r.frequency ≠ "daily" := by simp [h]
    have hne2 : r.frequency ≠ "weekly" := by simp [h]
    simp [RecurrenceRule.MatchesDate, h, hne, hne2]
  · intro h hbig
    have hne : r.frequency ≠ "daily" := by simp [h]
    have hne2 : r.frequency ≠ "weekly" := by simp [h]
    have : (d.day : Int) ≠ r.dayOfMonth := by
      have : (d.day : Int) ≤ (daysInMonth d.year d.month : Int) := by
        exact_mod_cast hday
      omega
    simp [RecurrenceRule.MatchesDate, h, hne, hne2, this]
  · intro h1 h2 h3
    simp [RecurrenceRule.MatchesDate, h1, h2, h3]

/-- Witness for claim2_matchesDate_characterization: a monthly rule
configured for day 31 never matches any valid date of February 2026
(28 days), here 2026-02-10. -/
theorem claim2_matchesDate_characterization_witness :
    validDate { year := 2026, month := 2, day := 10 } ∧
    RecurrenceRule.MatchesDate
      { frequency := "monthly", times := [], daysOfWeek := [], dayOfMonth := 31 }
      { year := 2026, month := 2, day := 10 } = false :=
  ⟨by decide,
   (claim2_matchesDate_characterization
      { frequency := "monthly", times := [], daysOfWeek := [], dayOfMonth := 31 }
      { year := 2026, month := 2, day := 10 } (by decide)).2.2.2.1 rfl (by decide)⟩

/-- C3 counterexample: the claim asserts 8:00 America/New_York on
2026-03-08 resolves to 13:00 UTC, but 2026-03-08 is itself the second
Sunday of March — the spring-forward day — so 8:00 local is already EDT
and the resolver yields 12:00 UTC, not 13:00. -/
theorem claim3_dst_resolution_counterexample :
    resolveLocalTimeToUTC { year := 2026, month := 3, day := 8 } "08:00" .newYork =
      daysFromCivil { year := 2026, month := 3, day := 8 } * 1440 + 12 * 60 ∧
    resolveLocalTimeToUTC { year := 2026, month := 3, day := 8 } "08:00" .newYork ≠
      daysFromCivil { year := 2026, month := 3, day := 8 } * 1440 + 13 * 60 := by
  constructor
  · decide
  · decide

/-- C3 amended: a daily 8:00 America/New_York rule resolves 2026-03-08,
2026-03-09 and 2026-03-10 to the UTC instants 12:00, 12:00 and 12:00 —
2026-03-08 is the spring-forward day, so 8:00 local is already EDT on
all three dates (the EST instant 13:00 occurs on 2026-03-07 and
earlier); an ambiguous fall-back wall time resolves to its first
occurrence (1:30 on 2026-11-01 resolves to 5:30 UTC, the EDT reading,
one hour before the EST reading). -/
theorem claim3_dst_resolution_amended :
    resolveLocalTimeToUTC { year := 2026, month := 3, day := 8 } "08:00" .newYork =
      daysFromCivil { year := 2026, month := 3, day := 8 } * 1440 + 12 * 60 ∧
    resolveLocalTimeToUTC { year := 2026, month := 3, day := 9 } "08:00" .newYork =
      daysFromCivil { year := 2026, month := 3, day := 9 } * 1440 + 12 * 60 ∧
    resolveLocalTimeToUTC { year := 2026, month := 3, day := 10 } "08:00" .newYork =
      daysFromCivil { year := 2026, month := 3, day := 10 } * 1440 + 12 * 60 ∧
    resolveLocalTimeToUTC { year := 2026, month := 3, day := 7 } "08:00" .newYork =
      daysFromCivil { year := 2026, month := 3, day := 7 } * 1440 + 13 * 60 ∧
    resolveLocalTimeToUTC { year := 2026, month := 11, day := 1 } "01:30" .newYork =
      daysFromCivil { year := 2026, month := 11, day := 1 } * 1440 + 5 * 60 + 30 := by
  refine ⟨by decide, by decide, by decide, by decide, by decide⟩

/-- Concrete task template with 8:00 and 14:00 daily occurrences, used
by the late-day grace scenario. -/
def demoTwoTimesTemplate : TaskTemplate :=
  { id := 11, householdId := 1, careRecipientId := 1,
    rule := { frequency := "daily", times := ["08:00", "14:00"], daysOfWeek := [],
              dayOfMonth := 0 },
    titleEnc := "t2", isActive := true }

/-- Day number of 2026-03-15 (an EDT date). -/
def demoDay : Int := daysFromCivil { year := 2026, month := 3, day := 15 }

/-- UTC instant of local 15:00 America/New_York on 2026-03-15. -/
def demoNow : Int := demoDay * 1440 + 19 * 60

/-- C4: when generating for the current day, an occurrence whose
resolved UTC instant lies more than the 2-hour grace period before now
is skipped (never enters the generated rows), while every future instant
and every past instant within the grace period is generated; concretely,
at local 15:00 on 2026-03-15 America/New_York a daily template's 8:00
occurrence (12:00 UTC, seven hours past) produces no row while its 14:00
occurrence (18:00 UTC, one hour past) produces exactly one row. -/
theorem claim4_late_day_grace :
    (∀ s n : Int, shouldGenerateInstance s n = true ↔
        (n < s ∨ n - s ≤ lateInstanceGracePeriod)) ∧
    (∀ (t : TaskTemplate) (tz : Tz) (now day : Int), ∀ x ∈ taskRowsForDate t tz now day,
        shouldGenerateInstance x.dueAt now = true) ∧
    (∀ (t : TaskTemplate) (tz : Tz) (now day : Int) (tod : String),
        t.rule.MatchesDate (civilFromDays day) = true → tod ∈ t.rule.times →
        shouldGenerateInstance (resolveLocalTimeToUTC (civilFromDays day) tod tz) now = true →
        ∃ x ∈ taskRowsForDate t tz now day,
          x.dueAt = resolveLocalTimeToUTC (civilFromDays day) tod tz) ∧
    (taskRowsForDate demoTwoTimesTemplate .newYork demoNow demoDay).map Task.dueAt =
      [demoDay * 1440 + 18 * 60] := by
  refine ⟨?_, ?_, ?_, by decide⟩
  · intro s n
    unfold shouldGenerateInstance
    by_cases h : n < s
    · simp [h]
    · simp [h]
  · intro t tz now day x hx
    simp only [taskRowsForDate] at hx
    by_cases hm : t.rule.MatchesDate (civilFromDays day) = true
    · rw [if_pos hm] at hx
      obtain ⟨tod, _, hsome⟩ := List.mem_filterMap.mp hx
      by_cases hg : shouldGenerateInstance (resolveLocalTimeToUTC (civilFromDays day) tod tz) now = true
      · simp only [hg, if_pos] at hsome
        cases hsome
        exact hg
      · simp [hg] at hsome
    · rw [if_neg hm] at hx
      cases hx
  · intro t tz now day tod hm htod hg
    refine ⟨{ templateId := some t.id, careRecipientId := t.careRecipientId,
              titleEnc := t.titleEnc,
              dueAt := resolveLocalTimeToUTC (civilFromDays day) tod tz,
              completed := false, skipped := false, notesEnc := none,
              deletedAt := none }, ?_, rfl⟩
    simp only [taskRowsForDate, if_pos hm]
    exact List.mem_filterMap.mpr ⟨tod, htod, by rw [if_pos hg]⟩

/-- Witness for claim4_late_day_grace: in the concrete late-day
scenario the generated due instants are exactly the 14:00 one. -/
theorem claim4_late_day_grace_witness :
    (taskRowsForDate demoTwoTimesTemplate .newYork demoNow demoDay).map Task.dueAt =
      [demoDay * 1440 + 18 * 60] :=
  claim4_late_day_grace.2.2.2

/-! ## Index-wise helpers for UPDATE translations -/

theorem lt_length_of_getElem_some {α : Type _} {l : List α} {i : Nat} {a : α}
    (h : l[i]? = some a) : i < l.length := by
  by_contra hc
  rw [List.getElem?_eq_none (by omega)] at h
  cases h

theorem mem_of_getElem_some {α : Type _} {l : List α} {i : Nat} {a : α}
    (h : l[i]? = some a) : a ∈ l := by
  have hi : i < l.length := lt_length_of_getElem_some h
  have hv : l[i] = a := by
    rw [List.getElem?_eq_getElem hi] at h
    exact Option.some.inj h
  exact hv ▸ l.getElem_mem hi

theorem insertRows_prefix (dup : α → α → Bool) (rows : List α) :
    ∀ s : List α, ∃ ext, (insertRows dup s rows).1 = s ++ ext := by
  induction rows with
  | nil => intro s; exact ⟨[], by simp [insertRows]⟩
  | cons x rest ih =>
    intro s
    simp only [insertRows, insertOrIgnore]
    by_cases h : s.any (fun u => dup x u) = true
    · obtain ⟨ext, he⟩ := ih s
      exact ⟨ext, by simp [h, he]⟩
    · obtain ⟨ext, he⟩ := ih (s ++ [x])
      exact ⟨[x] ++ ext, by simp [h, he]⟩

theorem getElem_insertRows (dup : α → α → Bool) (rows : List α) {s : List α}
    {i : Nat} {t : α} (h : s[i]? = some t) :
    (insertRows dup s rows).1[i]? = some t := by
  obtain ⟨ext, he⟩ := insertRows_prefix dup rows s
  rw [he, List.getElem?_append, if_pos (lt_length_of_getElem_some h), h]

/-- Concrete future pending task carrying caregiver notes, used by the
deactivation counterexample. -/
def demoAnnotatedTask : Task :=
  { templateId := some 10, careRecipientId := 1, titleEnc := "t", dueAt := 5000,
    completed := false, skipped := false, notesEnc := some "n", deletedAt := none }

/-- C5 counterexample: the claim asserts that every instance carrying
caregiver notes is left entirely unchanged by any schedule-affecting
reconciliation, deactivation included; but the deactivation cleanup's
DeleteFutureUncompletedTasks query filters only on completed, skipped
and deleted_at — it has no notes_enc clause — so a future pending task
that carries caregiver notes is soft-deleted when its template is
deactivated. -/
theorem claim5_reconciliation_frame_counterexample :
    demoAnnotatedTask.notesEnc ≠ none ∧
    demoAnnotatedTask.completed = false ∧
    demoAnnotatedTask.skipped = false ∧
    (cleanupDeactivatedTaskTemplate 10 0 [demoAnnotatedTask])[0]? =
      some { demoAnnotatedTask with deletedAt := some 0 } ∧
    (cleanupDeactivatedTaskTemplate 10 0 [demoAnnotatedTask])[0]? ≠
      some demoAnnotatedTask := by
  refine ⟨by decide, by decide, by decide, by decide, by decide⟩

/-- C5 amended: a schedule-affecting template edit or recipient
timezone change soft-deletes exactly the future, pending, unannotated
instances of the affected template or recipient, while deactivation
soft-deletes every future pending instance of the deactivated template
regardless of caregiver notes.  First part: the template-edit soft
delete leaves every completed, skipped or annotated task untouched,
leaves tasks of other templates untouched, and marks every future
pending unannotated non-deleted task of the template.  Second part: the
deactivation cleanup leaves completed or skipped tasks and other
templates' tasks untouched, and marks every future pending non-deleted
task of the template, annotated or not.  Third part: the
timezone-change reconciliation (cleanup of all three stores followed by
regeneration, which only appends) leaves completed/skipped/annotated
tasks, non-pending or annotated administrations and non-scheduled
shifts entirely unchanged at their positions, and soft-deletes the
affected recipient's future pending unannotated instances. -/
theorem claim5_reconciliation_frame_amended :
    (∀ (tid : Nat) (now : Int) (store : List Task) (i : Nat) (t : Task),
      store[i]? = some t →
      ((t.completed = true ∨ t.skipped = true ∨ t.notesEnc ≠ none) →
        (softDeleteFuturePendingTasksByTemplate tid now store)[i]? = some t) ∧
      (t.templateId ≠ some tid →
        (softDeleteFuturePendingTasksByTemplate tid now store)[i]? = some t) ∧
      (t.templateId = some tid → now < t.dueAt → t.completed = false →
        t.skipped = false → t.notesEnc = none → t.deletedAt = none →
        (softDeleteFuturePendingTasksByTemplate tid now store)[i]? =
          some { t with deletedAt := some now })) ∧
    (∀ (tid : Nat) (now : Int) (store : List Task) (i : Nat) (t : Task),
      store[i]? = some t →
      ((t.completed = true ∨ t.skipped = true) →
        (cleanupDeactivatedTaskTemplate tid now store)[i]? = some t) ∧
      (t.templateId ≠ some tid →
        (cleanupDeactivatedTaskTemplate tid now store)[i]? = some t) ∧
      (t.templateId = some tid → now < t.dueAt → t.completed = false →
        t.skipped = false → t.deletedAt = none →
        (cleanupDeactivatedTaskTemplate tid now store)[i]? =
          some { t with deletedAt := some now })) ∧
    (∀ (r : CareRecipient) (days : List Int) (now : Int) (st : GenState) (i : Nat),
      (∀ t : Task, st.tasks[i]? = some t →
        ((t.completed = true ∨ t.skipped = true ∨ t.notesEnc ≠ none) →
          (reconcileTimezoneChange r days now st).1.tasks[i]? = some t) ∧
        (t.careRecipientId = r.id → now < t.dueAt → t.completed = false →
          t.skipped = false → t.notesEnc = none → t.deletedAt = none →
          (reconcileTimezoneChange r days now st).1.tasks[i]? =
            some { t with deletedAt := some now })) ∧
      (∀ a : MedAdmin, st.medAdmins[i]? = some a →
        ((a.status ≠ "pending" ∨ a.notesEnc ≠ none) →
          (reconcileTimezoneChange r days now st).1.medAdmins[i]? = some a) ∧
        (a.careRecipientId = r.id → now < a.scheduledAt → a.status = "pending" →
          a.notesEnc = none → a.deletedAt = none →
          (reconcileTimezoneChange r days now st).1.medAdmins[i]? =
            some { a with deletedAt := some now })) ∧
      (∀ s : Shift, st.shifts[i]? = some s →
        (s.status ≠ "scheduled" →
          (reconcileTimezoneChange r days now st).1.shifts[i]? = some s) ∧
        (s.careRecipientId = r.id → now < s.startsAt → s.status = "scheduled" →
          s.deletedAt = none →
          (reconcileTimezoneChange r days now st).1.shifts[i]? =
            some { s with deletedAt := some now }))) := by
  refine ⟨?_, ?_, ?_⟩
  · intro tid now store i t h
    have hmap : (softDeleteFuturePendingTasksByTemplate tid now store)[i]? =
        some (if t.templateId == some tid && decide (now < t.dueAt) && !t.completed &&
              !t.skipped && t.notesEnc == none && t.deletedAt == none then
                { t with deletedAt := some now } else t) := by
      simp only [softDeleteFuturePendingTasksByTemplate, List.getElem?_map, h,
        Option.map_some']
    refine ⟨?_, ?_, ?_⟩
    · rintro (hc | hc | hc) <;> rw [hmap] <;> simp [hc]
    · intro hc
      rw [hmap]
      simp [hc]
    · intro h1 h2 h3 h4 h5 h6
      rw [hmap]
      simp [h1, h2, h3, h4, h5, h6]
  · intro tid now store i t h
    have hmap : (cleanupDeactivatedTaskTemplate tid now store)[i]? =
        some (if t.templateId == some tid && decide (now < t.dueAt) && !t.completed &&
              !t.skipped && t.deletedAt == none then
                { t with deletedAt := some now } else t) := by
      simp only [cleanupDeactivatedTaskTemplate, deleteFutureUncompletedTasks,
        List.getElem?_map, h, Option.map_some']
    refine ⟨?_, ?_, ?_⟩
    · rintro (hc | hc) <;> rw [hmap] <;> simp [hc]
    · intro hc
      rw [hmap]
      simp [hc]
    · intro h1 h2 h3 h4 h5
      rw [hmap]
      simp [h1, h2, h3, h4, h5]
  · intro r days now st i
    have htask : ∀ t : Task, st.tasks[i]? = some t →
        (reconcileTimezoneChange r days now st).1.tasks[i]? =
          some (if t.careRecipientId == r.id && decide (now < t.dueAt) && !t.completed &&
                !t.skipped && t.notesEnc == none && t.deletedAt == none then
                  { t with deletedAt := some now } else t) := by
      intro t h
      have hclean : (softDeleteFuturePendingTasksByRecipient r.id now st.tasks)[i]? =
          some (if t.careRecipientId == r.id && decide (now < t.dueAt) && !t.completed &&
                !t.skipped && t.notesEnc == none && t.deletedAt == none then
                  { t with deletedAt := some now } else t) := by
        simp only [softDeleteFuturePendingTasksByRecipient, List.getElem?_map, h,
          Option.map_some']
      simp only [reconcileTimezoneChange, generateForCareRecipient]
      exact getElem_insertRows taskDup _ hclean
    have hmed : ∀ a : MedAdmin, st.medAdmins[i]? = some a →
        (reconcileTimezoneChange r days now st).1.medAdmins[i]? =
          some (if a.careRecipientId == r.id && decide (now < a.scheduledAt) &&
                a.status == "pending" && a.notesEnc == none && a.deletedAt == none then
                  { a with deletedAt := some now } else a) := by
      intro a h
      have hclean : (softDeleteFuturePendingMedAdminsByRecipient r.id now st.medAdmins)[i]? =
          some (if a.careRecipientId == r.id && decide (now < a.scheduledAt) &&
                a.status == "pending" && a.notesEnc == none && a.deletedAt == none then
                  { a with deletedAt := some now } else a) := by
        simp only [softDeleteFuturePendingMedAdminsByRecipient, List.getElem?_map, h,
          Option.map_some']
      simp only [reconcileTimezoneChange, generateForCareRecipient]
      exact getElem_insertRows medDup _ hclean
    have hshift : ∀ s : Shift, st.shifts[i]? = some s →
        (reconcileTimezoneChange r days now st).1.shifts[i]? =
          some (if s.careRecipientId == r.id && decide (now < s.startsAt) &&
                s.status == "scheduled" && s.deletedAt == none then
                  { s with deletedAt := some now } else s) := by
      intro s h
      have hclean : (softDeleteFuturePendingShiftsByRecipient r.id now st.shifts)[i]? =
          some (if s.careRecipientId == r.id && decide (now < s.startsAt) &&
                s.status == "scheduled" && s.deletedAt == none then
                  { s with deletedAt := some now } else s) := by
        simp only [softDeleteFuturePendingShiftsByRecipient, List.getElem?_map, h,
          Option.map_some']
      simp only [reconcileTimezoneChange, generateForCareRecipient]
      exact getElem_insertRows shiftDup _ hclean
    refine ⟨?_, ?_, ?_⟩
    · intro t h
      have hm := htask t h
      constructor
      · rintro (hc | hc | hc) <;> rw [hm] <;> simp [hc]
      · intro h1 h2 h3 h4 h5 h6
        rw [hm]
        simp [h1, h2, h3, h4, h5, h6]
    · intro a h
      have hm := hmed a h
      constructor
      · rintro (hc | hc) <;> rw [hm] <;> simp [hc]
      · intro h1 h2 h3 h4 h5
        rw [hm]
        simp [h1, h2, h3, h4, h5]
    · intro s h
      have hm := hshift s h
      constructor
      · intro hc
        rw [hm]
        simp [hc]
      · intro h1 h2 h3 h4
        rw [hm]
        simp [h1, h2, h3, h4]

/-- Concrete completed task used by the reconciliation witness. -/
def demoCompletedTask : Task :=
  { templateId := some 10, careRecipientId := 1, titleEnc := "t", dueAt := 5000,
    completed := true, skipped := false, notesEnc := none, deletedAt := none }

/-- Concrete pending unannotated future task used by the reconciliation
witness. -/
def demoPendingTask : Task :=
  { templateId := some 10, careRecipientId := 1, titleEnc := "t", dueAt := 5000,
    completed := false, skipped := false, notesEnc := none, deletedAt := none }

/-- Witness for claim5_reconciliation_frame_amended: at cutoff 0, the
template-edit soft delete preserves a completed future task and marks
its pending twin, while the deactivation cleanup marks even the
annotated pending task. -/
theorem claim5_reconciliation_frame_amended_witness :
    (softDeleteFuturePendingTasksByTemplate 10 0 [demoCompletedTask, demoPendingTask])[0]? =
      some demoCompletedTask ∧
    (softDeleteFuturePendingTasksByTemplate 10 0 [demoCompletedTask, demoPendingTask])[1]? =
      some { demoPendingTask with deletedAt := some 0 } ∧
    (cleanupDeactivatedTaskTemplate 10 0 [demoAnnotatedTask])[0]? =
      some { demoAnnotatedTask with deletedAt := some 0 } :=
  ⟨(claim5_reconciliation_frame_amended.1 10 0 [demoCompletedTask, demoPendingTask] 0
      demoCompletedTask (by decide)).1 (Or.inl (by decide)),
   (claim5_reconciliation_frame_amended.1 10 0 [demoCompletedTask, demoPendingTask] 1
      demoPendingTask (by decide)).2.2 (by decide) (by decide) (by decide) (by decide)
      (by decide) (by decide),
   (claim5_reconciliation_frame_amended.2.1 10 0 [demoAnnotatedTask] 0
      demoAnnotatedTask (by decide)).2.2 (by decide) (by decide) (by decide) (by decide)
      (by decide)⟩

/-- C8: deactivating one schedule of a medication soft-deletes only that
schedule's future pending administrations — the store keeps its length,
any administration of a different schedule (in particular any sibling
schedule of the same medication) is unchanged, and an administration of
the schedule is soft-deleted exactly when it is future, pending and not
already deleted. -/
theorem claim8_schedule_isolation (sid : Nat) (now : Int) (store : List MedAdmin)
    (i : Nat) (a : MedAdmin) (h : store[i]? = some a) :
    (softDeleteFuturePendingMedAdminsBySchedule sid now store).length = store.length ∧
    (a.scheduleId ≠ some sid →
      (softDeleteFuturePendingMedAdminsBySchedule sid now store)[i]? = some a) ∧
    (a.status ≠ "pending" →
      (softDeleteFuturePendingMedAdminsBySchedule sid now store)[i]? = some a) ∧
    (a.scheduledAt ≤ now →
      (softDeleteFuturePendingMedAdminsBySchedule sid now store)[i]? = some a) ∧
    (a.scheduleId = some sid → now < a.scheduledAt → a.status = "pending" →
      a.deletedAt = none →
      (softDeleteFuturePendingMedAdminsBySchedule sid now store)[i]? =
        some { a with deletedAt := some now }) := by
  have hmap : (softDeleteFuturePendingMedAdminsBySchedule sid now store)[i]? =
      some (if a.scheduleId == some sid && decide (now < a.scheduledAt) &&
            a.status == "pending" && a.deletedAt == none then
              { a with deletedAt := some now } else a) := by
    simp only [softDeleteFuturePendingMedAdminsBySchedule, List.getElem?_map, h,
      Option.map_some']
  refine ⟨by simp [softDeleteFuturePendingMedAdminsBySchedule], ?_, ?_, ?_, ?_⟩
  · intro hc
    rw [hmap]
    simp [hc]
  · intro hc
    rw [hmap]
    simp [hc]
  · intro hc
    rw [hmap]
    have : ¬ now < a.scheduledAt := by omega
    simp [this]
  · intro h1 h2 h3 h4
    rw [hmap]
    simp [h1, h2, h3, h4]

/-- Concrete administrations of two schedules of one medication, used by
the cross-schedule isolation witness. -/
def demoAdminScheduleA : MedAdmin :=
  { medicationId := 7, scheduleId := some 1, careRecipientId := 1, scheduledAt := 5000,
    status := "pending", notesEnc := none, deletedAt := none }

/-- Concrete sibling-schedule administration for the isolation witness. -/
def demoAdminScheduleB : MedAdmin :=
  { medicationId := 7, scheduleId := some 2, careRecipientId := 1, scheduledAt := 5000,
    status := "pending", notesEnc := none, deletedAt := none }

/-- Witness for claim8_schedule_isolation: deactivating schedule 1 of
medication 7 marks its future pending administration and leaves the
sibling schedule 2 administration unchanged. -/
theorem claim8_schedule_isolation_witness :
    (softDeleteFuturePendingMedAdminsBySchedule 1 0 [demoAdminScheduleA, demoAdminScheduleB])[0]? =
      some { demoAdminScheduleA with deletedAt := some 0 } ∧
    (softDeleteFuturePendingMedAdminsBySchedule 1 0 [demoAdminScheduleA, demoAdminScheduleB])[1]? =
      some demoAdminScheduleB :=
  ⟨(claim8_schedule_isolation 1 0 [demoAdminScheduleA, demoAdminScheduleB] 0
      demoAdminScheduleA (by decide)).2.2.2.2 (by decide) (by decide) (by decide) (by decide),
   (claim8_schedule_isolation 1 0 [demoAdminScheduleA, demoAdminScheduleB] 1
      demoAdminScheduleB (by decide)).2.1 (by decide)⟩

/-- C6: the generation window of a recipient is the half-open local
date range starting today in the recipient's timezone and extending the
configured number of days (default 3); every date the window enumerates
lies in that range, so no past day is ever enumerated; and generating
over the window touches only stored rows plus rows produced for dates
inside the range — after any gap, nothing is created for missed past
days. -/
theorem claim6_generation_window (now : Int) (tz : Tz) (cfg : List (String × Int)) :
    (getGenerationWindowForRecipient now tz cfg).1 = localToday now tz ∧
    (getGenerationWindowForRecipient now tz cfg).2 =
      localToday now tz + getConfigInt cfg "generation_window_days" 3 ∧
    getConfigInt [] "generation_window_days" 3 = 3 ∧
    (∀ d : Int, d ∈ windowDates (getGenerationWindowForRecipient now tz cfg) ↔
      localToday now tz ≤ d ∧
        d < localToday now tz + getConfigInt cfg "generation_window_days" 3) ∧
    (∀ (r : CareRecipient) (st : GenState) (x : Task),
      x ∈ (generateForCareRecipient r
            (windowDates (getGenerationWindowForRecipient now tz cfg)) now st).1.tasks →
      x ∈ st.tasks ∨ ∃ d : Int, localToday now tz ≤ d ∧
        d < localToday now tz + getConfigInt cfg "generation_window_days" 3 ∧
        x ∈ taskRowsAll r [d] now) ∧
    (∀ (r : CareRecipient) (st : GenState) (x : MedAdmin),
      x ∈ (generateForCareRecipient r
            (windowDates (getGenerationWindowForRecipient now tz cfg)) now st).1.medAdmins →
      x ∈ st.medAdmins ∨ ∃ d : Int, localToday now tz ≤ d ∧
        d < localToday now tz + getConfigInt cfg "generation_window_days" 3 ∧
        x ∈ medRowsAll r [d] now) ∧
    (∀ (r : CareRecipient) (st : GenState) (x : Shift),
      x ∈ (generateForCareRecipient r
            (windowDates (getGenerationWindowForRecipient now tz cfg)) now st).1.shifts →
      x ∈ st.shifts ∨ ∃ d : Int, localToday now tz ≤ d ∧
        d < localToday now tz + getConfigInt cfg "generation_window_days" 3 ∧
        x ∈ shiftRowsAll r [d] now) := by
  have haux : ∀ (n : Nat) (start d : Int),
      d ∈ windowDatesAux start n ↔ start ≤ d ∧ d < start + n := by
    intro n
    induction n with
    | zero =>
      intro start d
      simp [windowDatesAux]
    | succ m ih =>
      intro start d
      simp only [windowDatesAux, List.mem_cons, ih (start + 1) d]
      constructor
      · rintro (rfl | ⟨h1, h2⟩)
        · constructor
          · omega
          · omega
        · constructor
          · omega
          · omega
      · rintro ⟨h1, h2⟩
        by_cases he : d = start
        · exact Or.inl he
        · right
          constructor
          · omega
          · omega
  have hpair : getGenerationWindowForRecipient now tz cfg =
      (localToday now tz,
       localToday now tz + getConfigInt cfg "generation_window_days" 3) := rfl
  have hdates : ∀ d : Int,
      d ∈ windowDates (getGenerationWindowForRecipient now tz cfg) ↔
      localToday now tz ≤ d ∧
        d < localToday now tz + getConfigInt cfg "generation_window_days" 3 := by
    intro d
    rw [hpair]
    unfold windowDates
    rw [haux]
    constructor
    · rintro ⟨h1, h2⟩
      constructor
      · omega
      · omega
    · rintro ⟨h1, h2⟩
      constructor
      · omega
      · omega
  refine ⟨rfl, rfl, rfl, hdates, ?_, ?_, ?_⟩
  · intro r st x hx
    rcases mem_insertRows taskDup _ st.tasks x hx with hs | hr
    · exact Or.inl hs
    · right
      simp only [taskRowsAll, List.mem_flatMap] at hr
      obtain ⟨t, ht, d, hd, hrow⟩ := hr
      obtain ⟨h1, h2⟩ := (hdates d).mp hd
      refine ⟨d, h1, h2, ?_⟩
      simp only [taskRowsAll, List.mem_flatMap]
      exact ⟨t, ht, d, by simp, hrow⟩
  · intro r st x hx
    rcases mem_insertRows medDup _ st.medAdmins x hx with hs | hr
    · exact Or.inl hs
    · right
      simp only [medRowsAll, List.mem_flatMap] at hr
      obtain ⟨m, hm, sch, hsch, d, hd, hrow⟩ := hr
      obtain ⟨h1, h2⟩ := (hdates d).mp hd
      refine ⟨d, h1, h2, ?_⟩
      simp only [medRowsAll, List.mem_flatMap]
      exact ⟨m, hm, sch, hsch, d, by simp, hrow⟩
  · intro r st x hx
    rcases mem_insertRows shiftDup _ st.shifts x hx with hs | hr
    · exact Or.inl hs
    · right
      simp only [shiftRowsAll, List.mem_flatMap] at hr
      obtain ⟨t, ht, d, hd, hrow⟩ := hr
      obtain ⟨h1, h2⟩ := (hdates d).mp hd
      refine ⟨d, h1, h2, ?_⟩
      simp only [shiftRowsAll, List.mem_flatMap]
      exact ⟨t, ht, d, by simp, hrow⟩

/-! ## The status-checker pass as a pointwise map -/

/-- Effect of the whole mark-missed loop on a single stored shift:
each selected shift's MarkShiftMissed update applied in order. -/
def applyMarks (sel : List Shift) (x : Shift) : Shift :=
  sel.foldl (fun y u =>
    if y.id == u.id && y.status == "scheduled" then { y with status := "missed" } else y) x

theorem foldl_markShiftMissed (sel : List Shift) :
    ∀ store : List Shift,
      sel.foldl (fun acc u => markShiftMissed u.id acc) store =
        store.map (fun x => applyMarks sel x) := by
  induction sel with
  | nil => intro store; simp [applyMarks]
  | cons u rest ih =>
    intro store
    simp only [List.foldl_cons]
    rw [ih (markShiftMissed u.id store)]
    unfold markShiftMissed
    rw [List.map_map]
    congr 1

theorem applyMarks_of_not_scheduled (sel : List Shift) :
    ∀ x : Shift, x.status ≠ "scheduled" → applyMarks sel x = x := by
  induction sel with
  | nil => intro x _; rfl
  | cons u rest ih =>
    intro x hx
    have hcond : (x.id == u.id && x.status == "scheduled") = false := by
      simp [hx]
    simp only [applyMarks, List.foldl_cons, hcond]
    exact ih x hx

theorem applyMarks_of_ne (sel : List Shift) :
    ∀ x : Shift, (∀ u ∈ sel, x.id ≠ u.id) → applyMarks sel x = x := by
  induction sel with
  | nil => intro x _; rfl
  | cons u rest ih =>
    intro x hx
    have hcond : (x.id == u.id && x.status == "scheduled") = false := by
      simp [hx u (List.mem_cons_self u rest)]
    simp only [applyMarks, List.foldl_cons, hcond]
    exact ih x (fun v hv => hx v (List.mem_cons_of_mem _ hv))

theorem applyMarks_marks (sel : List Shift) :
    ∀ x : Shift, x.status = "scheduled" → (∃ u ∈ sel, x.id = u.id) →
      applyMarks sel x = { x with status := "missed" } := by
  induction sel with
  | nil => rintro x _ ⟨u, hu, -⟩; cases hu
  | cons u rest ih =>
    rintro x hsch ⟨v, hv, hid⟩
    by_cases hxu : x.id = u.id
    · have hcond : (x.id == u.id && x.status == "scheduled") = true := by
        simp [hxu, hsch]
      simp only [applyMarks, List.foldl_cons, hcond, if_pos]
      have : ({ x with status := "missed" } : Shift).status ≠ "scheduled" := by simp
      exact applyMarks_of_not_scheduled rest _ this
    · have hcond : (x.id == u.id && x.status == "scheduled") = false := by
        simp [hxu]
      simp only [applyMarks, List.foldl_cons, hcond]
      rcases List.mem_cons.mp hv with rfl | hmem
      · exact absurd hid hxu
      · exact ih x hsch ⟨v, hmem, hid⟩

theorem checkMissedShifts_getElem (now : Int) (store : List Shift)
    (hnd : (store.map Shift.id).Nodup) (i : Nat) (s : Shift)
    (h : store[i]? = some s) :
    (checkMissedShifts now store)[i]? =
      some (if s.status == "scheduled" && decide (s.startsAt < now - missedShiftGrace) &&
            s.deletedAt == none then { s with status := "missed" } else s) := by
  unfold checkMissedShifts
  rw [foldl_markShiftMissed, List.getElem?_map, h, Option.map_some']
  congr 1
  by_cases hc : (s.status == "scheduled" && decide (s.startsAt < now - missedShiftGrace) &&
      s.deletedAt == none) = true
  · rw [if_pos hc]
    have hmem : s ∈ getMissedShifts (now - missedShiftGrace) store :=
      List.mem_filter.mpr ⟨mem_of_getElem_some h, hc⟩
    have hsch : s.status = "scheduled" := by
      simp only [Bool.and_eq_true, beq_iff_eq] at hc
      exact hc.1.1
    exact applyMarks_marks _ s hsch ⟨s, hmem, rfl⟩
  · rw [if_neg hc]
    by_cases hsch : s.status = "scheduled"
    · refine applyMarks_of_ne _ s ?_
      intro u hu hid
      have hust := List.mem_filter.mp hu
      have : u = s :=
        List.inj_on_of_nodup_map hnd hust.1 (mem_of_getElem_some h) (by rw [← hid])
      rw [this] at hust
      exact hc hust.2
    · exact applyMarks_of_not_scheduled _ s hsch

/-- C7: after one status-checker pass at time now, every non-deleted
scheduled shift whose start lies more than the 30-minute grace before
now has become missed, every scheduled shift whose start is within the
grace (or in the future) keeps its record unchanged, and missed is
terminal — clock-in, swap acceptance, clock-out, MarkShiftMissed and a
further checker pass all leave a missed shift untouched. -/
theorem claim7_missed_shift_transition (now : Int) (store : List Shift)
    (hnd : (store.map Shift.id).Nodup) :
    (∀ (i : Nat) (s : Shift), store[i]? = some s →
      (s.status = "scheduled" → s.deletedAt = none →
        s.startsAt < now - missedShiftGrace →
        (checkMissedShifts now store)[i]? = some { s with status := "missed" }) ∧
      (s.status = "scheduled" → now - missedShiftGrace ≤ s.startsAt →
        (checkMissedShifts now store)[i]? = some s)) ∧
    (∀ (id : Nat) (st2 : List Shift) (i : Nat) (s : Shift), st2[i]? = some s →
      s.status = "missed" →
      (clockIn id st2)[i]? = some s ∧ (acceptSwap id st2)[i]? = some s ∧
      (clockOut id st2)[i]? = some s ∧ (markShiftMissed id st2)[i]? = some s ∧
      (checkMissedShifts now st2)[i]? = some s) := by
  refine ⟨?_, ?_⟩
  · intro i s h
    have hval := checkMissedShifts_getElem now store hnd i s h
    constructor
    · intro h1 h2 h3
      rw [hval]
      simp [h1, h2, h3]
    · intro h1 h2
      rw [hval]
      have : ¬ s.startsAt < now - missedShiftGrace := by omega
      simp [this]
  · intro id st2 i s h hmiss
    have hne : s.status ≠ "scheduled" := by rw [hmiss]; decide
    have hne2 : s.status ≠ "active" := by rw [hmiss]; decide
    refine ⟨?_, ?_, ?_, ?_, ?_⟩
    · simp only [clockIn, List.getElem?_map, h, Option.map_some']
      simp [hne]
    · simp only [acceptSwap, List.getElem?_map, h, Option.map_some']
      simp [hne]
    · simp only [clockOut, List.getElem?_map, h, Option.map_some']
      simp [hne2]
    · simp only [markShiftMissed, List.getElem?_map, h, Option.map_some']
      simp [hne]
    · unfold checkMissedShifts
      rw [foldl_markShiftMissed, List.getElem?_map, h, Option.map_some',
        applyMarks_of_not_scheduled _ s hne]

/-- Concrete shifts 31 and 29 minutes past their start at time 10000,
used by the missed-shift witness. -/
def demoShiftLate : Shift :=
  { id := 1, templateId := some 20, careRecipientId := 1, startsAt := 10000 - 31,
    endsAt := 10000 + 300, assignedTo := none, status := "scheduled", deletedAt := none }

/-- Concrete shift still within the missed-shift grace period. -/
def demoShiftRecent : Shift :=
  { id := 2, templateId := some 20, careRecipientId := 1, startsAt := 10000 - 29,
    endsAt := 10000 + 300, assignedTo := none, status := "scheduled", deletedAt := none }

/-- Witness for claim7_missed_shift_transition: at now = 10000, a
scheduled shift 31 minutes past its start becomes missed and one 29
minutes past stays scheduled under one checker pass. -/
theorem claim7_missed_shift_transition_witness :
    (checkMissedShifts 10000 [demoShiftLate, demoShiftRecent])[0]? =
      some { demoShiftLate with status := "missed" } ∧
    (checkMissedShifts 10000 [demoShiftLate, demoShiftRecent])[1]? =
      some demoShiftRecent :=
  ⟨((claim7_missed_shift_transition 10000 [demoShiftLate, demoShiftRecent]
      (by decide)).1 0 demoShiftLate (by decide)).1 (by decide) (by decide) (by decide),
   ((claim7_missed_shift_transition 10000 [demoShiftLate, demoShiftRecent]
      (by decide)).1 1 demoShiftRecent (by decide)).2 (by decide) (by decide)⟩

theorem notifKeep_iff (now : Int) (n : Notification) :
    ((!(decide (n.createdAt < now - notificationRetention) &&
        (n.readAt != none || n.dismissedAt != none))) = true) ↔
    ¬(n.createdAt < now - notificationRetention ∧
      (n.readAt ≠ none ∨ n.dismissedAt ≠ none)) := by
  simp [not_and]
  constructor
  · intro h hp
    rcases h with h | h
    · omega
    · exact ⟨h.1, h.2⟩
  · intro h
    by_cases hp : n.createdAt < now - notificationRetention
    · exact Or.inr (h hp)
    · exact Or.inl (by omega)

/-- C9: one housekeeping run hard-deletes exactly the sessions already
expired at now, the login attempts older than the 7-day retention
window, and the read-or-dismissed notifications older than the 90-day
retention window; an unread, undismissed notification survives every
run regardless of its age. -/
theorem claim9_housekeeping (now : Int) (sessions : List Session)
    (attempts : List LoginAttempt) (notifications : List Notification) :
    (∀ s : Session, s ∈ (housekeepingRun now sessions attempts notifications).1 ↔
      s ∈ sessions ∧ now ≤ s.expiresAt) ∧
    (∀ a : LoginAttempt,
      a ∈ (housekeepingRun now sessions attempts notifications).2.1 ↔
      a ∈ attempts ∧ now - loginAttemptRetention ≤ a.attemptedAt) ∧
    (∀ n : Notification,
      n ∈ (housekeepingRun now sessions attempts notifications).2.2 ↔
      n ∈ notifications ∧
        ¬(n.createdAt < now - notificationRetention ∧
          (n.readAt ≠ none ∨ n.dismissedAt ≠ none))) ∧
    (∀ n : Notification, n ∈ notifications → n.readAt = none → n.dismissedAt = none →
      n ∈ (housekeepingRun now sessions attempts notifications).2.2) := by
  refine ⟨?_, ?_, ?_, ?_⟩
  · intro s
    simp only [housekeepingRun, pruneExpiredSessions, List.mem_filter,
      Bool.not_eq_true', decide_eq_false_iff_not]
    constructor
    · rintro ⟨h1, h2⟩
      exact ⟨h1, by omega⟩
    · rintro ⟨h1, h2⟩
      exact ⟨h1, by omega⟩
  · intro a
    simp only [housekeepingRun, pruneOldLoginAttempts, List.mem_filter,
      Bool.not_eq_true', decide_eq_false_iff_not]
    constructor
    · rintro ⟨h1, h2⟩
      exact ⟨h1, by omega⟩
    · rintro ⟨h1, h2⟩
      exact ⟨h1, by omega⟩
  · intro n
    simp only [housekeepingRun, pruneOldNotifications, List.mem_filter]
    exact and_congr_right (fun _ => notifKeep_iff now n)
  · intro n hn hr hd
    simp only [housekeepingRun, pruneOldNotifications, List.mem_filter]
    refine ⟨hn, (notifKeep_iff now n).mpr ?_⟩
    rintro ⟨-, hor | hor⟩
    · exact hor hr
    · exact hor hd

/-- Concrete ancient unread notification used by the housekeeping
witness. -/
def demoUnreadNotification : Notification :=
  { id := 1, createdAt := -10000000, readAt := none, dismissedAt := none }

/-- Witness for claim9_housekeeping: an arbitrarily old unread,
undismissed notification survives a housekeeping run at now = 0. -/
theorem claim9_housekeeping_witness :
    demoUnreadNotification ∈ (housekeepingRun 0 [] [] [demoUnreadNotification]).2.2 :=
  (claim9_housekeeping 0 [] [] [demoUnreadNotification]).2.2.2 demoUnreadNotification
    (by decide) rfl rfl

/-- Concrete overnight shift template 23:30 to 00:30 used by the
fall-back counterexample. -/
def demoOvernightTemplate : ShiftTemplate :=
  { id := 20, careRecipientId := 1,
    rule := { frequency := "daily", times := [], daysOfWeek := [], dayOfMonth := 0 },
    shiftStartTime := "23:30", shiftEndTime := "00:30", assignedTo := none,
    isActive := true }

/-- Day number of 2026-11-01, the America/New_York fall-back day. -/
def fallBackDay : Int := daysFromCivil { year := 2026, month := 11, day := 1 }

/-- C10 counterexample: on the fall-back day (25 wall-clock hours) the
overnight template 23:30-00:30 resolves its start under EST and its end
under EDT, a gap of exactly 24 hours; the 24-hour overnight adjustment
then yields ends_at equal to starts_at, so the generator creates a shift
that violates starts_at strictly before ends_at. -/
theorem claim10_overnight_counterexample :
    (shiftRowsForDate demoOvernightTemplate .newYork 0 fallBackDay).map
        (fun s => (s.startsAt, s.endsAt)) =
      [(fallBackDay * 1440 + 1710, fallBackDay * 1440 + 1710)] ∧
    ∃ s ∈ shiftRowsForDate demoOvernightTemplate .newYork 0 fallBackDay,
      ¬ s.startsAt < s.endsAt := by
  constructor
  · decide
  · decide

/-- C10 amended: every generated shift is keyed to the resolved start
instant of its start date; when the resolved end is not after the
resolved start the generator adds 24 hours to the end; consequently
starts_at is strictly before ends_at exactly when the resolved start
exceeds the resolved end by less than 24 hours — always true when both
endpoints resolve with the same UTC offset, but violated by an overnight
shift wrapping a fall-back transition. -/
theorem claim10_overnight_amended (st : ShiftTemplate) (tz : Tz) (now day : Int)
    (s : Shift) (hs : s ∈ shiftRowsForDate st tz now day) :
    s.startsAt = resolveLocalTimeToUTC (civilFromDays day) st.shiftStartTime tz ∧
    (resolveLocalTimeToUTC (civilFromDays day) st.shiftEndTime tz ≤ s.startsAt →
      s.endsAt = resolveLocalTimeToUTC (civilFromDays day) st.shiftEndTime tz + 24 * 60) ∧
    (s.startsAt < resolveLocalTimeToUTC (civilFromDays day) st.shiftEndTime tz →
      s.endsAt = resolveLocalTimeToUTC (civilFromDays day) st.shiftEndTime tz) ∧
    (s.startsAt < s.endsAt ↔
      s.startsAt - resolveLocalTimeToUTC (civilFromDays day) st.shiftEndTime tz < 24 * 60) := by
  simp only [shiftRowsForDate] at hs
  by_cases hm : st.rule.MatchesDate (civilFromDays day) = true
  · rw [if_pos hm] at hs
    by_cases hg : shouldGenerateInstance
        (resolveLocalTimeToUTC (civilFromDays day) st.shiftStartTime tz) now = true
    · rw [if_pos hg] at hs
      rcases List.mem_singleton.mp hs with rfl
      set a := resolveLocalTimeToUTC (civilFromDays day) st.shiftStartTime tz with ha
      set b := resolveLocalTimeToUTC (civilFromDays day) st.shiftEndTime tz with hb
      refine ⟨rfl, ?_, ?_, ?_⟩
      · intro hle
        show (if b ≤ a then b + 24 * 60 else b) = b + 24 * 60
        rw [if_pos hle]
      · intro hlt
        show (if b ≤ a then b + 24 * 60 else b) = b
        have : ¬ b ≤ a := by
          simp only [ha] at hlt
          omega
        rw [if_neg this]
      · show a < (if b ≤ a then b + 24 * 60 else b) ↔ a - b < 24 * 60
        by_cases hle : b ≤ a
        · rw [if_pos hle]
          constructor
          · intro h1
            omega
          · intro h1
            omega
        · rw [if_neg hle]
          constructor
          · intro h1
            omega
          · intro h1
            omega
    · rw [if_neg hg] at hs
      cases hs
  · rw [if_neg hm] at hs
    cases hs

/-- Concrete shift produced by the overnight template on the fall-back
day, with equal start and end instants. -/
def demoOvernightShift : Shift :=
  { id := 0, templateId := some 20, careRecipientId := 1,
    startsAt := fallBackDay * 1440 + 1710, endsAt := fallBackDay * 1440 + 1710,
    assignedTo := none, status := "scheduled", deletedAt := none }

/-- Witness for claim10_overnight_amended at the concrete fall-back
shift: its start is the resolved start instant and the strict ordering
fails because the resolved gap reaches 24 hours. -/
theorem claim10_overnight_amended_witness :
    demoOvernightShift.startsAt =
      resolveLocalTimeToUTC (civilFromDays fallBackDay)
        demoOvernightTemplate.shiftStartTime .newYork ∧
    (demoOvernightShift.startsAt < demoOvernightShift.endsAt ↔
      demoOvernightShift.startsAt -
        resolveLocalTimeToUTC (civilFromDays fallBackDay)
          demoOvernightTemplate.shiftEndTime .newYork < 24 * 60) :=
  ⟨(claim10_overnight_amended demoOvernightTemplate .newYork 0 fallBackDay
      demoOvernightShift (by decide)).1,
   (claim10_overnight_amended demoOvernightTemplate .newYork 0 fallBackDay
      demoOvernightShift (by decide)).2.2.2⟩

end Shelterkin
